import Mathlib

/-!
# CoinMonitor — verification of the monitor framework

Shallow embedding of the multi-monitor scheduling / alert framework of the
CoinMonitor repository (`monitors/base_monitor.py`, the concrete monitors and
`monitor_bot.py`), together with proofs settling the frozen claims about it.

Conventions of the embedding:
* Python floats are modelled as `Rat`; machine formatting of floats
  (`str(float)`, `:.4f`) is not modelled where no claim depends on it.
* `await`ed network calls are modelled by explicit oracles (functions from the
  request to an `Except`/outcome value) passed into the embedded functions.
* Exceptions are modelled with `Except String` / explicit outcome values; a
  Python `try/except Exception` block becomes a `match` on that value.
* Telegram sends are modelled by accumulating the sent payloads in the state.
-/

namespace CoinMonitor

/-! ## BaseMonitor.run / stop (`monitors/base_monitor.py`, lines 83-106)

The run loop is embedded as a transition function over an explicit state,
driven by a finite trace of cycle inputs supplied by the environment.  One
`Cycle` describes what the environment does during one iteration of the
`while self._running` loop: the outcome of `await self.check()` (normal
return, or an exception of Python class `Exception` escaping it), whether the
check lazily created/used the aiohttp session (`_get_session`), and whether
`stop()` was called at some point during this iteration (its effect is only
observed at the next `while self._running` test, exactly as in the source).
The error-notification send in the `except` branch is modelled as always
succeeding (failures of the Telegram transport itself are outside the claims).
-/

/-- Outcome of one `await self.check()` call: normal return or an exception
(of Python class `Exception`) escaping it, carrying its message. -/
inductive CheckOutcome where
  | ok : CheckOutcome
  | err : String → CheckOutcome
deriving DecidableEq, Repr

/-- Environment input for one iteration of the `while self._running` loop. -/
structure Cycle where
  outcome : CheckOutcome
  usesSession : Bool
  stopRequested : Bool
deriving DecidableEq, Repr

/-- Observable state of a `BaseMonitor` for the run-loop claims:
`running` is `self._running`, `sessionOpen` says whether `self.session` is a
live (created, not closed) session, `closeCount` counts `session.close()`
calls, `checkCount` counts `check()` invocations, `errLog` collects the
messages logged by the `except` branch, `notifyCount` counts the error
notifications sent through the bot, `stoppedLogged` records that the final
"已停止" log line of the `finally` block was reached. -/
structure RunState where
  running : Bool
  sessionOpen : Bool
  closeCount : Nat
  checkCount : Nat
  errLog : List String
  notifyCount : Nat
  stoppedLogged : Bool
deriving DecidableEq, Repr

/-- State of a freshly constructed monitor (`BaseMonitor.__init__`):
not running, no session, nothing counted. -/
def initState : RunState :=
  { running := false, sessionOpen := false, closeCount := 0,
    checkCount := 0, errLog := [], notifyCount := 0, stoppedLogged := false }

/-- One loop body iteration: `await self.check()` inside `try`, with the
`except Exception` branch logging the error and sending an error message. -/
def doCheck (s : RunState) (c : Cycle) : RunState :=
  let s1 := { s with checkCount := s.checkCount + 1,
                     sessionOpen := s.sessionOpen || c.usesSession }
  match c.outcome with
  | .ok => s1
  | .err m => { s1 with errLog := s1.errLog ++ [m],
                        notifyCount := s1.notifyCount + 1 }

/-- The `while self._running` loop of `BaseMonitor.run`, driven by a finite
trace of cycle inputs.  The running flag is tested at the top of each
iteration; a `stop()` issued during a cycle (`stopRequested`) clears the flag
after that cycle's check and sleep, so it takes effect at the next test. -/
def runLoop (s : RunState) : List Cycle → RunState
  | [] => s
  | c :: rest =>
    if s.running then
      let s1 := doCheck s c
      let s2 := if c.stopRequested then { s1 with running := false } else s1
      runLoop s2 rest
    else s

/-- The `finally` block of `BaseMonitor.run`: `if self.session: await
self.session.close()`, then the stop log line. -/
def finalizeRun (s : RunState) : RunState :=
  { s with closeCount := s.closeCount + (if s.sessionOpen then 1 else 0),
           sessionOpen := false, stoppedLogged := true }

/-- `BaseMonitor.run`: set `self._running = True`, run the loop over the
environment trace, then execute the `finally` block. -/
def run (s : RunState) (trace : List Cycle) : RunState :=
  finalizeRun (runLoop { s with running := true } trace)

/-- `BaseMonitor.stop`: clear the running flag (the log line is irrelevant to
the claims).  Kept for completeness of the control surface. -/
def stop (s : RunState) : RunState :=
  if s.running then { s with running := false } else s

/-! ## BaseMonitor.update_config (`monitors/base_monitor.py`, lines 49-66)

`update_config` reads the attribute named `key` via `hasattr`/`getattr`,
applies the attribute's current Python type as a constructor to the raw
string, and on success stores the result with `setattr`.  We model the
Python values that can sit in a monitor's configurable attributes
(`int`, `float`, `str`, `bool`, `None`, and `list` of strings for
watchlists), the behaviour of each type's constructor on a string argument,
and the attribute table as an association list keyed by attribute name. -/

/-- A Python value held by a monitor attribute.  Floats are modelled as
rationals; the only lists that occur in monitor attributes are lists of
strings (watchlists). -/
inductive PyVal where
  | int : Int → PyVal
  | float : Rat → PyVal
  | str : String → PyVal
  | bool : Bool → PyVal
  | none : PyVal
  | list : List String → PyVal
deriving DecidableEq, Repr

/-- Python `int(s)` on a string: optional sign followed by a nonempty digit
run (Python's tolerance for surrounding whitespace and `_` separators is not
modelled; no claim depends on those forms).  `Option.none` models the
`ValueError` raised on any other input. -/
def pyParseInt : String → Option Int := fun s =>
  let core (ds : List Char) : Option Nat :=
    if ds ≠ [] ∧ ds.all Char.isDigit then
      some (ds.foldl (fun acc c => acc * 10 + (c.toNat - 48)) 0)
    else Option.none
  match s.data with
  | '-' :: ds => (core ds).map (fun n => -(n : Int))
  | '+' :: ds => (core ds).map (fun n => (n : Int))
  | ds => (core ds).map (fun n => (n : Int))

/-- Python `float(s)` on a string: optional sign, then `digits`,
`digits.digits`, `digits.` or `.digits` (exponent, `inf` and `nan` forms are
not modelled; no claim depends on them).  `Option.none` models `ValueError`. -/
def pyParseFloat : String → Option Rat := fun s =>
  let digitsVal (ds : List Char) : Nat :=
    ds.foldl (fun acc c => acc * 10 + (c.toNat - 48)) 0
  let core (ds : List Char) : Option Rat :=
    let intPart := ds.takeWhile (· ≠ '.')
    let rest := ds.dropWhile (· ≠ '.')
    if intPart.all Char.isDigit then
      match rest with
      | [] =>
        if intPart ≠ [] then some (mkRat (digitsVal intPart) 1) else Option.none
      | '.' :: frac =>
        if frac.all Char.isDigit ∧ (intPart ≠ [] ∨ frac ≠ []) then
          some (mkRat (digitsVal intPart * 10 ^ frac.length + digitsVal frac)
                (10 ^ frac.length))
        else Option.none
      | _ => Option.none
    else Option.none
  match s.data with
  | '-' :: ds => (core ds).map (fun q => -q)
  | '+' :: ds => core ds
  | ds => core ds

/-- `attr_type(value)` of `update_config`: apply the Python type of the
current attribute value to the raw string.  `int`/`float` parse (raising
`ValueError` on failure, modelled by `Option.none`); `str` is identity;
`bool(s)` is truthiness of the string and never raises; `NoneType(s)` raises
`TypeError`; `list(s)` is the list of the string's characters. -/
def coerceTo (current : PyVal) (value : String) : Option PyVal :=
  match current with
  | .int _ => (pyParseInt value).map PyVal.int
  | .float _ => (pyParseFloat value).map PyVal.float
  | .str _ => some (.str value)
  | .bool _ => some (.bool (value ≠ ""))
  | .none => Option.none
  | .list _ => some (.list (value.data.map (fun c => String.mk [c])))

/-- The mutable attributes of a monitor, keyed by attribute name. -/
def AttrStore := List (String × PyVal)

instance : DecidableEq AttrStore := by
  unfold AttrStore
  infer_instance

/-- `getattr`-style lookup: first binding for the key, if any. -/
def attrLookup (m : AttrStore) (key : String) : Option PyVal :=
  (m.find? (fun kv => kv.1 = key)).map Prod.snd

/-- `setattr`: replace the value bound to `key` (the stores we build bind
each key once). -/
def attrSet (m : AttrStore) (key : String) (v : PyVal) : AttrStore :=
  m.map (fun kv => if kv.1 = key then (kv.1, v) else kv)

/-- Result classification of `update_config`, mirroring its three return
branches: the "没有名为 ... 的配置项" invalid-key message, the "无法将值 ...
转换" type-coercion message, and the "已更新为" success message carrying the
stored value. -/
inductive UpdateResult where
  | invalidKey : UpdateResult
  | typeError : UpdateResult
  | ok : PyVal → UpdateResult
deriving DecidableEq, Repr

/-- `BaseMonitor.update_config(key, value)`: if the attribute does not exist
return the invalid-key message; otherwise coerce the raw string to the
attribute's current type, returning the type-error message on failure and
storing the new value on success.  Returns the (possibly updated) attribute
store together with the classified result message. -/
def update_config (m : AttrStore) (key value : String) : AttrStore × UpdateResult :=
  match attrLookup m key with
  | Option.none => (m, .invalidKey)
  | some cur =>
    match coerceTo cur value with
    | Option.none => (m, .typeError)
    | some nv => (attrSet m key nv, .ok nv)

/-! ## OpenInterestMonitor.get_status (`monitors/open_interest_monitor.py`,
lines 220-238)

`get_status` interpolates `self._running`, `self.interval`,
`self.threshold * 100`, the watchlist (when truthy) and the counts of
`self.symbols` and `self.invalid_symbols` into a status string.  We model the
rendered snapshot as a record holding exactly the values the format string
reads, with the configurable fields read from the monitor's attribute
store. -/

/-- The values interpolated into the `OpenInterestMonitor.get_status`
string: running flag, `self.interval`, `self.threshold` (shown as
`threshold * 100` percent), the watchlist line (present only when the
watchlist is truthy), and the symbol / ignored-symbol counts. -/
structure OIStatusView where
  running : Bool
  interval : PyVal
  threshold : PyVal
  watchlist : Option (List String)
  symbolCount : Nat
  invalidCount : Nat
deriving DecidableEq, Repr

/-- Python truthiness of an optional list (`if self.watchlist:`): `None` and
the empty list are falsy. -/
def listTruthy : Option (List String) → Bool
  | Option.none => false
  | some l => l ≠ []

/-- `OpenInterestMonitor.get_status`, reading the configurable fields
(`interval`, `threshold`, `watchlist`) from the attribute store and the
run-state data from the remaining instance fields. -/
def oiGetStatus (m : AttrStore) (running : Bool)
    (symbols invalid : List String) : OIStatusView :=
  let wl := match attrLookup m "watchlist" with
    | some (.list l) => some l
    | _ => Option.none
  { running := running,
    interval := (attrLookup m "interval").getD .none,
    threshold := (attrLookup m "threshold").getD .none,
    watchlist := if listTruthy wl then wl else Option.none,
    symbolCount := symbols.length,
    invalidCount := invalid.length }

/-! ## Watchlist editing (`monitors/price_spike_monitor.py`, lines 173-195)

`PriceSpikeMonitor` keeps an optional `watchlist` and a `symbols` list.
`add_to_watchlist` uppercases the item, refuses items already in `symbols`,
snapshots `symbols` into `watchlist` when the watchlist is falsy (switching
from full-universe mode to watchlist mode), and appends the item to both
lists.  `remove_from_watchlist` refuses items not in `symbols` and filters
the item out of both lists (the watchlist only when truthy). -/

/-- Python `symbol.upper()` (ASCII uppercasing, characterwise). -/
def pyUpper (s : String) : String :=
  String.mk (s.data.map Char.toUpper)

/-- Classified result message of the watchlist-editing methods. -/
inductive WLResult where
  | added : WLResult
  | removed : WLResult
  | alreadyPresent : WLResult
  | notPresent : WLResult
deriving DecidableEq, Repr

/-- Watchlist-relevant state of a `PriceSpikeMonitor`: the optional
`self.watchlist` and the effective `self.symbols` list. -/
structure PSState where
  watchlist : Option (List String)
  symbols : List String
deriving DecidableEq, Repr

/-- `PriceSpikeMonitor.add_to_watchlist`. -/
def ps_add_to_watchlist (s : PSState) (item : String) : PSState × WLResult :=
  let symbol := pyUpper item
  if symbol ∈ s.symbols then (s, .alreadyPresent)
  else
    let base := if listTruthy s.watchlist then s.watchlist.getD [] else s.symbols
    ({ watchlist := some (base ++ [symbol]),
       symbols := s.symbols ++ [symbol] }, .added)

/-- `PriceSpikeMonitor.remove_from_watchlist`. -/
def ps_remove_from_watchlist (s : PSState) (item : String) : PSState × WLResult :=
  let symbol := pyUpper item
  if symbol ∈ s.symbols then
    ({ watchlist :=
         if listTruthy s.watchlist then
           some ((s.watchlist.getD []).filter (· ≠ symbol))
         else s.watchlist,
       symbols := s.symbols.filter (· ≠ symbol) }, .removed)
  else (s, .notPresent)

/-! ## OpenInterestMonitor: invalid symbols and check
(`monitors/open_interest_monitor.py`, lines 48-157 and 190-218)

State relevant to the invalid-symbol logic: the optional watchlist, the
effective `symbols` list, the `invalid_symbols` set (modelled as a duplicate
free list), and the `previous_open_interest` / `previous_prices` caches
updated by a successful `_check_symbol`.  The 2-minute history bookkeeping
and the alert/chart emission of `_check_symbol` (its steps 2-4) mutate only
`oi_history` / `price_history` and send messages; they never touch
`symbols` or `invalid_symbols` and are elided here. -/

/-- Watchlist / invalid-symbol state of an `OpenInterestMonitor`. -/
structure OIState where
  watchlist : Option (List String)
  symbols : List String
  invalid : List String
  previousOI : List (String × Rat)
  previousPrice : List (String × Rat)
deriving DecidableEq, Repr

/-- Outcome of the data fetches of `_check_symbol` for one symbol: both
fetches succeed (yielding the open interest and the latest close price), or
an `aiohttp.ClientResponseError` with the given HTTP status is raised, or
some other exception is raised. -/
inductive FetchOutcome where
  | ok : Rat → Rat → FetchOutcome
  | httpErr : Nat → FetchOutcome
  | exn : String → FetchOutcome
deriving DecidableEq, Repr

/-- Cache update `self.previous_open_interest[symbol] = ...` (the datetime
component of the stored pair is irrelevant to the claims and dropped). -/
def cacheSet (m : List (String × Rat)) (key : String) (v : Rat) :
    List (String × Rat) :=
  if m.any (fun kv => kv.1 = key) then
    m.map (fun kv => if kv.1 = key then (kv.1, v) else kv)
  else m ++ [(key, v)]

/-- `OpenInterestMonitor._check_symbol`: on success update the per-symbol
caches; on an HTTP 400 response add the symbol to `invalid_symbols` and
return normally; re-raise any other HTTP error or exception (the second
component is the exception propagated to `asyncio.gather`, if any). -/
def oi_check_symbol (st : OIState) (symbol : String) (r : FetchOutcome) :
    OIState × Option String :=
  match r with
  | .ok oi price =>
    ({ st with previousOI := cacheSet st.previousOI symbol oi,
               previousPrice := cacheSet st.previousPrice symbol price },
     Option.none)
  | .httpErr status =>
    if status = 400 then
      ({ st with invalid := st.invalid ++ [symbol] }, Option.none)
    else (st, some ("HTTP " ++ toString status))
  | .exn msg => (st, some msg)

/-- `OpenInterestMonitor._initialize_symbols`: when the watchlist is truthy
use it as the symbol list; otherwise use the discovered full universe
(`universe` stands for the exchange-info result, or the retry fallback list,
whichever the network produced; either way it never touches
`invalid_symbols`). -/
def oi_initialize_symbols (st : OIState) (univ : List String) : OIState :=
  if listTruthy st.watchlist then { st with symbols := st.watchlist.getD [] }
  else { st with symbols := univ }

/-- The symbols one `check()` cycle actually checks
(line 90: `[s for s in self.symbols if s not in self.invalid_symbols]`). -/
def oi_symbols_to_check (st : OIState) : List String :=
  st.symbols.filter (fun s => s ∉ st.invalid)

/-- One `_check_symbol` task of the `asyncio.gather(...,
return_exceptions=True)` call: its state effect, with any raised exception
collected (logged) rather than propagated. -/
def oi_check_step (fetch : String → FetchOutcome)
    (acc : OIState × List String) (symbol : String) : OIState × List String :=
  let r := oi_check_symbol acc.1 symbol (fetch symbol)
  (r.1, acc.2 ++ r.2.toList)

/-- `OpenInterestMonitor.check`: initialize `symbols` when empty, filter out
the known invalid symbols, and run `_check_symbol` for each remaining symbol;
the second component is the log of collected per-symbol exceptions, which
never propagate. -/
def oi_check (st : OIState) (univ : List String)
    (fetch : String → FetchOutcome) : OIState × List String :=
  let st1 := if st.symbols = [] then oi_initialize_symbols st univ else st
  if st1.symbols = [] then (st1, [])
  else (oi_symbols_to_check st1).foldl (oi_check_step fetch) (st1, [])

/-- `OpenInterestMonitor.add_to_watchlist` (lines 190-206): like the
price-spike version, but a symbol newly added is also removed from
`invalid_symbols` (line 203-204).  Note the `symbol in self.symbols` early
return at line 193 fires before that removal. -/
def oi_add_to_watchlist (s : OIState) (item : String) : OIState × WLResult :=
  let symbol := pyUpper item
  if symbol ∈ s.symbols then (s, .alreadyPresent)
  else
    let base := if listTruthy s.watchlist then s.watchlist.getD [] else s.symbols
    ({ s with watchlist := some (base ++ [symbol]),
              symbols := s.symbols ++ [symbol],
              invalid := s.invalid.filter (· ≠ symbol) }, .added)

/-- `OpenInterestMonitor.remove_from_watchlist` (lines 208-218): identical to
the price-spike version; `invalid_symbols` is untouched. -/
def oi_remove_from_watchlist (s : OIState) (item : String) : OIState × WLResult :=
  let symbol := pyUpper item
  if symbol ∈ s.symbols then
    let wl := if listTruthy s.watchlist then
        some ((s.watchlist.getD []).filter (· ≠ symbol))
      else s.watchlist
    ({ s with watchlist := wl,
              symbols := s.symbols.filter (· ≠ symbol) }, .removed)
  else (s, .notPresent)

/-! ## FundingRateMonitor._send_alerts_message
(`monitors/funding_rate_monitor.py`, lines 150-166)

The method renders one `msg_part` string per alert dict and accumulates them
into a single message starting from the header line.  Before appending a
part it tests `len(message) + len(msg_part) > 4096`; on overflow it appends
a truncation notice and `break`s, dropping that part and all later ones.
Exactly one message is then sent.  The embedding works on the already
rendered part strings and additionally returns, as ghost data, the list of
parts that made it into the message and whether truncation occurred. -/

/-- The fixed header the summary message starts from. -/
def fundingHeader : String := "⚠️ <b>异常资金费率预警</b>\n\n"

/-- The notice appended when the message would exceed 4096 characters. -/
def truncationNotice : String := "⚠️ 消息过长，已截断部分内容..."

/-- The accumulation loop of `_send_alerts_message` over the rendered parts:
returns the final message, the parts actually appended, and whether the
truncation branch was taken. -/
def buildAlertsMessage (message : String) (included : List String) :
    List String → String × List String × Bool
  | [] => (message, included, false)
  | p :: rest =>
    if message.length + p.length > 4096 then
      (message ++ truncationNotice, included, true)
    else buildAlertsMessage (message ++ p) (included ++ [p]) rest

/-- `FundingRateMonitor._send_alerts_message` applied to the rendered
`msg_part` strings of an alert batch: the single message that gets sent,
with the ghost data of `buildAlertsMessage`. -/
def send_alerts_message (parts : List String) : String × List String × Bool :=
  buildAlertsMessage fundingHeader [] parts

/-! ## BotRunner._initialize_monitors (`monitor_bot.py`, lines 69-95)

For every entry of `config["monitors"]`: disabled entries are skipped; a
name with no matching class in `MONITOR_CLASSES` is skipped; otherwise the
constructor is called inside `try/except` — on success the monitor is put
into the registry, on failure the error is logged and the loop continues
with the next entry.  Constructed monitor objects are represented by opaque
identifiers (`Nat`). -/

/-- One entry of `config["monitors"]`: its name, its `enabled` flag, whether
`MONITOR_CLASSES` has a class for the name, and the outcome of calling the
constructor (`Except.error` models a raised exception). -/
structure MonitorEntry where
  name : String
  enabled : Bool
  known : Bool
  outcome : Except String Nat
deriving Repr

/-- The loop body of `_initialize_monitors` for one config entry: skip
disabled entries and unknown names; otherwise register the constructed
monitor or log the construction failure. -/
def init_step (acc : List (String × Nat) × List String) (e : MonitorEntry) :
    List (String × Nat) × List String :=
  if e.enabled ∧ e.known then
    match e.outcome with
    | .ok m => (acc.1 ++ [(e.name, m)], acc.2)
    | .error msg => (acc.1, acc.2 ++ [msg])
  else acc

/-- `BotRunner._initialize_monitors`: returns the registry (name ↦ monitor,
in construction order) and the log of construction failures. -/
def initialize_monitors (entries : List MonitorEntry) :
    List (String × Nat) × List String :=
  entries.foldl init_step ([], [])

/-- The registry entry an entry contributes, if any: enabled, with a known
class, and successfully constructed. -/
def entrySuccess (e : MonitorEntry) : Option (String × Nat) :=
  if e.enabled ∧ e.known then
    match e.outcome with
    | .ok m => some (e.name, m)
    | .error _ => Option.none
  else Option.none

/-- The failure log line an entry contributes, if any. -/
def entryFailure (e : MonitorEntry) : Option String :=
  if e.enabled ∧ e.known then
    match e.outcome with
    | .ok _ => Option.none
    | .error msg => some msg
  else Option.none

/-! ## FundingRateMonitor.get_funding_rate_alerts
(`monitors/funding_rate_monitor.py`, lines 53-119)

The whole body sits in one `try` whose `except Exception` handler logs the
error and returns `[]`.  The pipeline inside the `try`: concurrently fetch
the premium-index, 24h-ticker and spot-price endpoints (a failure of any one
raises, since `asyncio.gather` is used without `return_exceptions`), build
the ticker / spot dictionaries, select the USDT symbols whose absolute
funding rate reaches the threshold, fetch the 30m/1h/4h kline changes for
each selected symbol (again a raising gather), fetch the open interest per
selected symbol sequentially, assemble the alert dicts, and sort them by
descending absolute funding rate.  Fetches are modelled by `Except`-valued
oracles in a `FundingEnv`; the strftime rendering of `nextFundingTime` is
kept as the raw timestamp. -/

/-- One element of the `/fapi/v1/premiumIndex` response. -/
structure FundingItem where
  symbol : String
  lastFundingRate : Rat
  markPrice : Rat
  nextFundingTime : Int
deriving DecidableEq, Repr

/-- One element of the `/fapi/v1/ticker/24hr` response. -/
structure TickerItem where
  symbol : String
  priceChangePercent : Rat
  quoteVolume : Rat
deriving DecidableEq, Repr

/-- One element of the `/api/v3/ticker/price` response. -/
structure SpotItem where
  symbol : String
  price : Rat
deriving DecidableEq, Repr

/-- The 30m / 1h / 4h close-price changes produced by
`_fetch_price_changes` for one symbol. -/
structure KlineChanges where
  change30m : Rat
  change1h : Rat
  change4h : Rat
deriving DecidableEq, Repr

/-- One assembled alert dict.  `spotPrice = Option.none` corresponds to the
`"N/A"` rendering (symbol absent from the spot dictionary, or a falsy 0.0
price); `openInterest` is already divided by 1e6 as in the source. -/
structure FundingAlert where
  symbol : String
  fundingRate : Rat
  markPrice : Rat
  spotPrice : Option Rat
  priceChange : Rat
  volume : Rat
  openInterest : Rat
  nextFundingTime : Int
  changes : KlineChanges
deriving DecidableEq, Repr

/-- Oracle for every network fetch `get_funding_rate_alerts` performs;
`Except.error` models a raised exception. -/
structure FundingEnv where
  funding : Except String (List FundingItem)
  ticker : Except String (List TickerItem)
  spot : Except String (List SpotItem)
  klines : String → Except String KlineChanges
  openInterest : String → Except String Rat

/-- Stable descending sort by absolute funding rate
(`alerts.sort(key=lambda x: abs(x['funding_rate']), reverse=True)`). -/
def sortAlerts (alerts : List FundingAlert) : List FundingAlert :=
  alerts.mergeSort (fun a b => |b.fundingRate| ≤ |a.fundingRate|)

/-- The `try` body of `get_funding_rate_alerts` as an `Except` computation:
any raising step aborts the whole pipeline with that error. -/
def computeFundingAlerts (threshold : Rat) (env : FundingEnv) :
    Except String (List FundingAlert) := do
  let funding ← env.funding
  let ticker ← env.ticker
  let spot ← env.spot
  let symbolsToCheck :=
    (funding.filter (fun i =>
      i.symbol ≠ "" ∧ i.symbol.endsWith "USDT" ∧ threshold ≤ |i.lastFundingRate|)).map
      (fun i => i.symbol)
  let extras ← symbolsToCheck.mapM (fun s => do
    let c ← env.klines s
    pure (s, c))
  let alerts ← (funding.filter (fun i => i.symbol ∈ symbolsToCheck)).mapM
    (fun item => do
      let oi ← env.openInterest item.symbol
      let kc := ((extras.find? (fun p => p.1 = item.symbol)).map Prod.snd).getD
        ⟨0, 0, 0⟩
      let tk := ticker.find? (fun t => t.symbol = item.symbol)
      let spRaw := (spot.find? (fun t => t.symbol = item.symbol)).map SpotItem.price
      let sp := match spRaw with
        | some p => if p ≠ 0 then some p else Option.none
        | Option.none => Option.none
      pure { symbol := item.symbol,
             fundingRate := item.lastFundingRate,
             markPrice := item.markPrice,
             spotPrice := sp,
             priceChange := (tk.map TickerItem.priceChangePercent).getD 0,
             volume := (tk.map TickerItem.quoteVolume).getD 0,
             openInterest := oi / 1000000,
             nextFundingTime := item.nextFundingTime,
             changes := kc })
  pure (sortAlerts alerts)

/-- `FundingRateMonitor.get_funding_rate_alerts`: the `except Exception`
handler turns any pipeline failure into the empty list. -/
def get_funding_rate_alerts (threshold : Rat) (env : FundingEnv) :
    List FundingAlert :=
  match computeFundingAlerts threshold env with
  | .ok l => l
  | .error _ => []

/-! ## TwitterMonitor (`monitors/twitter_monitor.py`, lines 67-135)

`check` walks `self.watch_ids`; per user it fetches the latest tweet (a
per-user exception is caught and logged, an empty tweet list skips the
user).  On the first run it only records the latest tweet id; otherwise it
records the id and queues an alert whenever the id differs from the stored
one.  After the loop, a first run clears `is_first_run` and returns before
any message is sent; otherwise the queued alerts are sent.
`add_to_watchlist` requires a numeric id, refuses duplicates, and on success
appends the id and sets `is_first_run` back to `True`. -/

/-- Outcome of `_fetch_latest_tweet` for one user: an exception (caught and
logged by `check`), an empty tweet list, or the latest tweet's id. -/
inductive TweetFetch where
  | err : String → TweetFetch
  | noTweet : TweetFetch
  | tweet : String → TweetFetch
deriving DecidableEq, Repr

/-- State of a `TwitterMonitor`: the watched user ids, the
`latest_tweet_ids` dictionary, and the `is_first_run` flag. -/
structure TwState where
  watchIds : List String
  latest : List (String × String)
  isFirstRun : Bool
deriving DecidableEq, Repr

/-- Dictionary read: `self.latest_tweet_ids.get(user_id)`. -/
def dictGet (m : List (String × String)) (k : String) : Option String :=
  (m.find? (fun kv => kv.1 = k)).map Prod.snd

/-- Dictionary write: `self.latest_tweet_ids[user_id] = tweet_id` — replace
the binding of an existing key (the dictionaries built here bind each key at
most once), append a new binding otherwise. -/
def dictSet : List (String × String) → String → String → List (String × String)
  | [], k, v => [(k, v)]
  | kv :: t, k, v =>
    if kv.1 = k then (kv.1, v) :: t else kv :: dictSet t k v

/-- The body of `check`'s `for user_id in self.watch_ids` loop for one user:
a fetch error is caught and logged, an empty tweet list is skipped; on the
first run the latest id is only recorded, otherwise a changed id is recorded
and an alert is queued.  The accumulator carries the `latest_tweet_ids`
dictionary and the queued `alerts_to_send` (as `(user_id, tweet_id)` pairs);
`firstRun` is `self.is_first_run`, which the loop itself never mutates. -/
def tw_step (firstRun : Bool) (fetch : String → TweetFetch)
    (acc : List (String × String) × List (String × String)) (uid : String) :
    List (String × String) × List (String × String) :=
  match fetch uid with
  | .err _ => acc
  | .noTweet => acc
  | .tweet tid =>
    if firstRun then (dictSet acc.1 uid tid, acc.2)
    else if dictGet acc.1 uid ≠ some tid then
      (dictSet acc.1 uid tid, acc.2 ++ [(uid, tid)])
    else acc

/-- `TwitterMonitor.check`: returns the updated state and the list of alert
messages actually sent, each identified by the `(user_id, tweet_id)` pair it
was built from.  On a first run the method clears `is_first_run` and returns
before the send loop, so nothing is sent. -/
def tw_check (st : TwState) (fetch : String → TweetFetch) :
    TwState × List (String × String) :=
  let r := st.watchIds.foldl (tw_step st.isFirstRun fetch) (st.latest, [])
  if st.isFirstRun then
    ({ st with latest := r.1, isFirstRun := false }, [])
  else
    ({ st with latest := r.1 }, r.2)

/-- Python `str.isdigit` restricted to ASCII digits: nonempty and all
characters are digits. -/
def pyIsDigit (s : String) : Bool :=
  s ≠ "" && s.data.all Char.isDigit

/-- Classified result of `TwitterMonitor.add_to_watchlist`. -/
inductive TwAddResult where
  | invalidId : TwAddResult
  | alreadyPresent : TwAddResult
  | added : TwAddResult
deriving DecidableEq, Repr

/-- `TwitterMonitor.add_to_watchlist`. -/
def tw_add_to_watchlist (st : TwState) (uid : String) : TwState × TwAddResult :=
  if ¬ pyIsDigit uid then (st, .invalidId)
  else if uid ∈ st.watchIds then (st, .alreadyPresent)
  else ({ st with watchIds := st.watchIds ++ [uid], isFirstRun := true }, .added)

/-- `TwitterMonitor.remove_from_watchlist`: filter the id out of the watch
list and drop its `latest_tweet_ids` entry. -/
def tw_remove_from_watchlist (st : TwState) (uid : String) :
    TwState × WLResult :=
  if uid ∈ st.watchIds then
    ({ st with watchIds := st.watchIds.filter (· ≠ uid),
               latest := st.latest.filter (fun kv => kv.1 ≠ uid) }, .removed)
  else (st, .notPresent)

/-! ## Helper lemmas -/

@[simp] theorem doCheck_running (s : RunState) (c : Cycle) :
    (doCheck s c).running = s.running := by
  cases h : c.outcome <;> simp [doCheck, h]

@[simp] theorem doCheck_checkCount (s : RunState) (c : Cycle) :
    (doCheck s c).checkCount = s.checkCount + 1 := by
  cases h : c.outcome <;> simp [doCheck, h]

@[simp] theorem doCheck_closeCount (s : RunState) (c : Cycle) :
    (doCheck s c).closeCount = s.closeCount := by
  cases h : c.outcome <;> simp [doCheck, h]

@[simp] theorem doCheck_stoppedLogged (s : RunState) (c : Cycle) :
    (doCheck s c).stoppedLogged = s.stoppedLogged := by
  cases h : c.outcome <;> simp [doCheck, h]

@[simp] theorem doCheck_sessionOpen (s : RunState) (c : Cycle) :
    (doCheck s c).sessionOpen = (s.sessionOpen || c.usesSession) := by
  cases h : c.outcome <;> simp [doCheck, h]

theorem runLoop_not_running (s : RunState) (l : List Cycle)
    (h : s.running = false) : runLoop s l = s := by
  cases l <;> simp [runLoop, h]

/-- After the loop sees a stop-requesting cycle preceded by cycles without a
stop request, the loop state is fully determined: the flag is down, exactly
the `pre`-cycles plus the stopping cycle were checked, nothing was closed,
and the session is open if the stopping cycle used it. -/
theorem runLoop_stop_spec (cstop : Cycle) (post : List Cycle)
    (hstop : cstop.stopRequested = true) :
    ∀ (pre : List Cycle) (s : RunState), s.running = true →
    (∀ c ∈ pre, c.stopRequested = false) →
    (runLoop s (pre ++ cstop :: post)).running = false ∧
    (runLoop s (pre ++ cstop :: post)).checkCount
      = s.checkCount + (pre.length + 1) ∧
    (runLoop s (pre ++ cstop :: post)).closeCount = s.closeCount ∧
    (runLoop s (pre ++ cstop :: post)).stoppedLogged = s.stoppedLogged ∧
    (cstop.usesSession = true →
      (runLoop s (pre ++ cstop :: post)).sessionOpen = true) := by
  intro pre
  induction pre with
  | nil =>
    intro s hrun _
    have hbody : runLoop s ([] ++ cstop :: post)
        = runLoop { doCheck s cstop with running := false } post := by
      simp [runLoop, hrun, hstop]
    have hstopdone :
        runLoop { doCheck s cstop with running := false } post
          = { doCheck s cstop with running := false } :=
      runLoop_not_running _ _ rfl
    rw [hbody, hstopdone]
    refine ⟨rfl, by simp, by simp, by simp, ?_⟩
    intro hu
    simp [hu]
  | cons c rest ih =>
    intro s hrun hpre
    have hcstop : c.stopRequested = false := hpre c (by simp)
    have hrest : ∀ c' ∈ rest, c'.stopRequested = false := by
      intro c' hc'
      exact hpre c' (by simp [hc'])
    have hbody : runLoop s ((c :: rest) ++ cstop :: post)
        = runLoop (doCheck s c) (rest ++ cstop :: post) := by
      simp [runLoop, hrun, hcstop]
    have hrun' : (doCheck s c).running = true := by simp [hrun]
    have h := ih (doCheck s c) hrun' hrest
    rw [hbody]
    refine ⟨h.1, ?_, ?_, ?_, h.2.2.2.2⟩
    · rw [h.2.1]; simp [List.length_cons]; omega
    · rw [h.2.2.1]; simp
    · rw [h.2.2.2.1]; simp

/-! ## Claim theorems -/

/-- C1: any exception (of Python class `Exception`) escaping `check()` during
a run-loop cycle is caught by `run()`'s `try/except`, logged, reported as an
error notification, and the loop proceeds (still running) to the sleep phase
and then the remaining cycles; the exception never terminates the loop. -/
theorem run_loop_survives_check_exception (s : RunState) (c : Cycle)
    (rest : List Cycle) (m : String)
    (hrun : s.running = true) (hout : c.outcome = .err m)
    (hstop : c.stopRequested = false) :
    (doCheck s c).running = true ∧
    (doCheck s c).errLog = s.errLog ++ [m] ∧
    (doCheck s c).notifyCount = s.notifyCount + 1 ∧
    runLoop s (c :: rest) = runLoop (doCheck s c) rest := by
  refine ⟨by simp [hrun], by simp [doCheck, hout], by simp [doCheck, hout], ?_⟩
  simp [runLoop, hrun, hstop]

/-- Witness for C1: one concrete erroring cycle is logged, notified, and the
monitor is still running afterwards. -/
theorem run_loop_survives_check_exception_witness :
    runLoop { initState with running := true }
        [⟨CheckOutcome.err "boom", true, false⟩] =
      { running := true, sessionOpen := true, closeCount := 0, checkCount := 1,
        errLog := ["boom"], notifyCount := 1, stoppedLogged := false } := by
  have h := run_loop_survives_check_exception { initState with running := true }
    ⟨CheckOutcome.err "boom", true, false⟩ [] "boom" rfl rfl rfl
  rw [h.2.2.2]
  decide

/-- C2: once `stop()` is requested during a cycle, the loop performs no
further `check()` after that cycle (exactly the preceding cycles plus the
stopping one are checked), reaches the stopped state (`finally` block
executed), and closes the HTTP session exactly once. -/
theorem stop_reaches_stopped_and_closes_once (pre : List Cycle) (cstop : Cycle)
    (post : List Cycle)
    (hpre : ∀ c ∈ pre, c.stopRequested = false)
    (hstop : cstop.stopRequested = true)
    (hsess : cstop.usesSession = true) :
    (run initState (pre ++ cstop :: post)).checkCount = pre.length + 1 ∧
    (run initState (pre ++ cstop :: post)).running = false ∧
    (run initState (pre ++ cstop :: post)).stoppedLogged = true ∧
    (run initState (pre ++ cstop :: post)).closeCount = 1 := by
  obtain ⟨h1, h2, h3, h4, h5⟩ :=
    runLoop_stop_spec cstop post hstop pre { initState with running := true }
      rfl hpre
  have hs := h5 hsess
  simp only [initState] at h1 h2 h3 h4 hs
  refine ⟨?_, ?_, ?_, ?_⟩ <;>
    simp [run, finalizeRun, h1, h2, h3, h4, hs, initState]

/-- Witness for C2: with no cycles before the stop request and one scheduled
cycle after it, only one check happens, the monitor stops, and the session is
closed once. -/
theorem stop_reaches_stopped_and_closes_once_witness :
    (run initState
        [⟨CheckOutcome.ok, true, true⟩, ⟨CheckOutcome.ok, true, false⟩]).checkCount
      = 1 ∧
    (run initState
        [⟨CheckOutcome.ok, true, true⟩, ⟨CheckOutcome.ok, true, false⟩]).running
      = false ∧
    (run initState
        [⟨CheckOutcome.ok, true, true⟩, ⟨CheckOutcome.ok, true, false⟩]).stoppedLogged
      = true ∧
    (run initState
        [⟨CheckOutcome.ok, true, true⟩, ⟨CheckOutcome.ok, true, false⟩]).closeCount
      = 1 := by
  have h := stop_reaches_stopped_and_closes_once []
    ⟨CheckOutcome.ok, true, true⟩ [⟨CheckOutcome.ok, true, false⟩]
    (by simp) rfl rfl
  simpa using h

/-- C3: `update_config` returns the invalid-key message when the attribute
does not exist and the type-coercion message when the raw value cannot be
converted to the attribute's current type; in both failure cases the
attribute store is returned unchanged. -/
theorem update_config_failure_leaves_state (m : AttrStore) (key value : String) :
    (attrLookup m key = Option.none →
      update_config m key value = (m, UpdateResult.invalidKey)) ∧
    (∀ cur, attrLookup m key = some cur → coerceTo cur value = Option.none →
      update_config m key value = (m, UpdateResult.typeError)) := by
  constructor
  · intro h
    simp [update_config, h]
  · intro cur h hc
    simp [update_config, h, hc]

/-- Witness for C3: on a monitor with an `interval : int` attribute, an
unknown key yields the invalid-key message and a non-numeric value for
`interval` yields the type-coercion message, both leaving the store as-is. -/
theorem update_config_failure_leaves_state_witness :
    update_config [("interval", PyVal.int 60)] "threshold" "0.1"
      = ([("interval", PyVal.int 60)], UpdateResult.invalidKey) ∧
    update_config [("interval", PyVal.int 60)] "interval" "abc"
      = ([("interval", PyVal.int 60)], UpdateResult.typeError) :=
  ⟨(update_config_failure_leaves_state [("interval", PyVal.int 60)]
      "threshold" "0.1").1 (by decide),
   (update_config_failure_leaves_state [("interval", PyVal.int 60)]
      "interval" "abc").2 (PyVal.int 60) (by decide) (by decide)⟩

theorem attrLookup_attrSet_self (m : AttrStore) (k : String) (v : PyVal)
    (cur : PyVal) (h : attrLookup m k = some cur) :
    attrLookup (attrSet m k v) k = some v := by
  induction m with
  | nil => simp [attrLookup] at h
  | cons kv t ih =>
    by_cases hk : kv.1 = k
    · simp [attrLookup, attrSet, List.find?, hk]
    · have h' : attrLookup t k = some cur := by
        simpa [attrLookup, List.find?, hk] using h
      simpa [attrLookup, attrSet, List.find?, hk] using ih h'

/-- C4: for a schema key (`interval` or `threshold`) and a raw string the
field's current type accepts, `update_config` succeeds, stores exactly the
coerced value, and the snapshot `get_status` builds afterwards shows that
new value. -/
theorem update_config_success_reflected_in_status (m : AttrStore)
    (key raw : String) (cur nv : PyVal) (running : Bool)
    (symbols invalid : List String)
    (hcur : attrLookup m key = some cur)
    (hco : coerceTo cur raw = some nv) :
    update_config m key raw = (attrSet m key nv, UpdateResult.ok nv) ∧
    attrLookup (attrSet m key nv) key = some nv ∧
    (key = "interval" →
      (oiGetStatus (attrSet m key nv) running symbols invalid).interval = nv) ∧
    (key = "threshold" →
      (oiGetStatus (attrSet m key nv) running symbols invalid).threshold = nv) := by
  have hset := attrLookup_attrSet_self m key nv cur hcur
  refine ⟨by simp [update_config, hcur, hco], hset, ?_, ?_⟩
  · intro hk
    subst hk
    simp [oiGetStatus, hset]
  · intro hk
    subst hk
    simp [oiGetStatus, hset]

/-- Witness for C4: updating `threshold` to `"0.1"` on the open-interest
monitor's default attributes succeeds, stores `0.1`, and the status snapshot
shows the new threshold. -/
theorem update_config_success_reflected_in_status_witness :
    update_config
        [("interval", PyVal.int 60), ("threshold", PyVal.float (mkRat 1 20)),
         ("watchlist", PyVal.none)] "threshold" "0.1"
      = ([("interval", PyVal.int 60), ("threshold", PyVal.float (mkRat 1 10)),
          ("watchlist", PyVal.none)], UpdateResult.ok (PyVal.float (mkRat 1 10))) ∧
    (oiGetStatus
        [("interval", PyVal.int 60), ("threshold", PyVal.float (mkRat 1 10)),
         ("watchlist", PyVal.none)] true ["BTCUSDT"] []).threshold
      = PyVal.float (mkRat 1 10) := by
  have h := update_config_success_reflected_in_status
    [("interval", PyVal.int 60), ("threshold", PyVal.float (mkRat 1 20)),
     ("watchlist", PyVal.none)] "threshold" "0.1"
    (PyVal.float (mkRat 1 20)) (PyVal.float (mkRat 1 10)) true ["BTCUSDT"] []
    (by decide) (by decide)
  exact ⟨by simpa using h.1, by simpa using h.2.2.2 rfl⟩

/-- C5 counterexample: starting in full-universe mode (watchlist unset,
symbols discovered as `["BTCUSDT"]`), adding `"ETHUSDT"` and then removing it
leaves the monitor with `watchlist = some ["BTCUSDT"]` — watchlist mode, not
the unset full-universe mode the claim promises. -/
theorem watchlist_roundtrip_keeps_watchlist_mode :
    ((ps_remove_from_watchlist
        (ps_add_to_watchlist ⟨Option.none, ["BTCUSDT"]⟩ "ETHUSDT").1
        "ETHUSDT").1).watchlist = some ["BTCUSDT"] ∧
    ((ps_remove_from_watchlist
        (ps_add_to_watchlist ⟨Option.none, ["BTCUSDT"]⟩ "ETHUSDT").1
        "ETHUSDT").1).watchlist ≠ Option.none := by
  decide

theorem filter_ne_of_not_mem (u : String) (l : List String) (hl : u ∉ l) :
    l.filter (· ≠ u) = l := by
  apply List.filter_eq_self.mpr
  intro a ha
  simp only [ne_eq, decide_not, Bool.not_eq_eq_eq_not, Bool.not_true,
    decide_eq_false_iff_not]
  exact fun h => hl (h ▸ ha)

/-- C5 (amended): `addToWatchlist(X)` then `removeFromWatchlist(X)` for an
unmonitored `X` restores the `symbols` list (the current effective
instrument set) exactly, and restores the watchlist itself when one was
already set; but when the watchlist was unset it leaves the monitor in
watchlist mode, with the watchlist pinned to the snapshot of the previous
symbols — full-universe mode is not restored. -/
theorem watchlist_roundtrip_amended (s : PSState) (item : String)
    (hsym : pyUpper item ∉ s.symbols)
    (hwl : ∀ l, s.watchlist = some l → pyUpper item ∉ l) :
    (ps_remove_from_watchlist (ps_add_to_watchlist s item).1 item).1 =
      { watchlist := if listTruthy s.watchlist then s.watchlist
                     else some s.symbols,
        symbols := s.symbols } := by
  have hsymfilter : s.symbols.filter (· ≠ pyUpper item) = s.symbols :=
    filter_ne_of_not_mem _ _ hsym
  have hadd : (ps_add_to_watchlist s item).1 =
      { watchlist := some ((if listTruthy s.watchlist then s.watchlist.getD []
          else s.symbols) ++ [pyUpper item]),
        symbols := s.symbols ++ [pyUpper item] } := by
    simp [ps_add_to_watchlist, hsym]
  have hbase : (if listTruthy s.watchlist then s.watchlist.getD []
      else s.symbols).filter (· ≠ pyUpper item) =
      (if listTruthy s.watchlist then s.watchlist.getD [] else s.symbols) := by
    cases hw : s.watchlist with
    | none => simpa [listTruthy] using hsymfilter
    | some l =>
      by_cases hl : l = []
      · subst hl
        simpa [listTruthy] using hsymfilter
      · have ht : listTruthy (some l) = true := by simp [listTruthy, hl]
        rw [if_pos ht]
        rw [Option.getD_some]
        exact filter_ne_of_not_mem _ _ (hwl l hw)
  rw [hadd]
  simp only [ps_remove_from_watchlist]
  rw [if_pos (by simp)]
  have htr : listTruthy (some ((if listTruthy s.watchlist then
      s.watchlist.getD [] else s.symbols) ++ [pyUpper item])) = true := by
    simp [listTruthy]
  rw [if_pos htr]
  simp only [Option.getD_some, List.filter_append]
  rw [hbase, hsymfilter]
  have hself : ([pyUpper item].filter (· ≠ pyUpper item)) = [] := by
    simp
  rw [hself, List.append_nil]
  cases hw : s.watchlist with
  | none => simp [listTruthy]
  | some l =>
    by_cases hl : l = []
    · subst hl
      simp [listTruthy]
    · have ht : listTruthy (some l) = true := by simp [listTruthy, hl]
      simp [ht]

/-- Witness for the amended C5: the concrete round trip from full-universe
mode lands exactly on `watchlist = some ["BTCUSDT"]`, `symbols = ["BTCUSDT"]`. -/
theorem watchlist_roundtrip_amended_witness :
    (ps_remove_from_watchlist
        (ps_add_to_watchlist ⟨Option.none, ["BTCUSDT"]⟩ "ETHUSDT").1
        "ETHUSDT").1 = ⟨some ["BTCUSDT"], ["BTCUSDT"]⟩ := by
  have h := watchlist_roundtrip_amended ⟨Option.none, ["BTCUSDT"]⟩ "ETHUSDT"
    (by decide) (by intro l hl; cases hl)
  simpa [listTruthy] using h

theorem buildAlertsMessage_spec (parts : List String) :
    ∀ (msg : String) (inc : List String),
    ∃ k, k ≤ parts.length ∧
      (buildAlertsMessage msg inc parts).2.1 = inc ++ parts.take k ∧
      (buildAlertsMessage msg inc parts).1
        = (parts.take k).foldl (· ++ ·) msg ++
          (if (buildAlertsMessage msg inc parts).2.2 then truncationNotice
           else "") ∧
      ((buildAlertsMessage msg inc parts).2.2 = false → k = parts.length) ∧
      ((buildAlertsMessage msg inc parts).2.2 = true → k < parts.length) := by
  induction parts with
  | nil =>
    intro msg inc
    refine ⟨0, by simp, by simp [buildAlertsMessage], ?_, by simp, by
      simp [buildAlertsMessage]⟩
    simp [buildAlertsMessage]
  | cons p rest ih =>
    intro msg inc
    by_cases hover : msg.length + p.length > 4096
    · refine ⟨0, by simp, ?_, ?_, ?_, ?_⟩
      · simp [buildAlertsMessage, hover]
      · simp [buildAlertsMessage, hover]
      · intro h
        simp [buildAlertsMessage, hover] at h
      · intro _
        simp
    · obtain ⟨k, hk, hinc, hmsg, hfull, htrunc⟩ := ih (msg ++ p) (inc ++ [p])
      have hstep : buildAlertsMessage msg inc (p :: rest)
          = buildAlertsMessage (msg ++ p) (inc ++ [p]) rest := by
        simp [buildAlertsMessage, hover]
      refine ⟨k + 1, by simpa using hk, ?_, ?_, ?_, ?_⟩
      · rw [hstep, hinc]
        simp
      · rw [hstep, hmsg]
        simp [List.take_succ_cons]
      · intro h
        rw [hstep] at h
        simp [hfull h]
      · intro h
        rw [hstep] at h
        simpa using htrunc h

/-- C6 (amended): `_send_alerts_message` produces a single message, not a
sequence.  The alert items are appended whole, in order (the included items
are exactly a prefix of the batch, so splitting happens only at item
boundaries and each included item appears exactly once); when appending the
next item would push the message past 4096 characters a truncation notice is
appended instead and that item and all later ones are dropped entirely; only
when no truncation occurs does every item of the batch appear. -/
theorem send_alerts_single_message_truncates (parts : List String) :
    ∃ k, k ≤ parts.length ∧
      (send_alerts_message parts).2.1 = parts.take k ∧
      (send_alerts_message parts).1
        = (parts.take k).foldl (· ++ ·) fundingHeader ++
          (if (send_alerts_message parts).2.2 then truncationNotice else "") ∧
      ((send_alerts_message parts).2.2 = false → k = parts.length) ∧
      ((send_alerts_message parts).2.2 = true → k < parts.length) := by
  obtain ⟨k, hk, hinc, hmsg, hfull, htrunc⟩ :=
    buildAlertsMessage_spec parts fundingHeader []
  exact ⟨k, hk, by simpa using hinc, hmsg, hfull, htrunc⟩

/-- A rendered alert part of 4000 characters. -/
def hugePart : String := String.mk (List.replicate 4000 'a')

/-- A rendered alert part of 200 characters. -/
def smallPart : String := String.mk (List.replicate 200 'b')

/-- C6 counterexample: for a two-item batch whose serialized text exceeds
4096 characters, the formatter keeps only the first item and sets the
truncation flag — the second item appears in no produced message, refuting
"every alert item of the batch appears exactly once". -/
theorem send_alerts_drops_overflow_items :
    (send_alerts_message [hugePart, smallPart]).2.1 = [hugePart] ∧
    smallPart ∉ (send_alerts_message [hugePart, smallPart]).2.1 ∧
    (send_alerts_message [hugePart, smallPart]).2.2 = true := by
  have hhuge : hugePart.length = 4000 := by
    rw [hugePart, String.length]
    exact List.length_replicate 4000 'a'
  have hsmall : smallPart.length = 200 := by
    rw [smallPart, String.length]
    exact List.length_replicate 200 'b'
  have hhead : fundingHeader.length = 20 := by decide
  have h1 : ¬ (fundingHeader.length + hugePart.length > 4096) := by
    rw [hhead, hhuge]
    norm_num
  have h2 : (fundingHeader ++ hugePart).length + smallPart.length > 4096 := by
    rw [String.length_append, hhead, hhuge, hsmall]
    norm_num
  have hne : smallPart ≠ hugePart := by
    intro h
    have hlen := congrArg String.length h
    rw [hsmall, hhuge] at hlen
    norm_num at hlen
  refine ⟨?_, ?_, ?_⟩
  · simp [send_alerts_message, buildAlertsMessage, h1, h2, hhead, hhuge, hsmall]
  · simp [send_alerts_message, buildAlertsMessage, h1, h2, hhead, hhuge, hsmall,
      hne]
  · simp [send_alerts_message, buildAlertsMessage, h1, h2, hhead, hhuge,
      hsmall]

theorem init_fold_eq (entries : List MonitorEntry) :
    ∀ acc, entries.foldl init_step acc =
      (acc.1 ++ entries.filterMap entrySuccess,
       acc.2 ++ entries.filterMap entryFailure) := by
  induction entries with
  | nil =>
    intro acc
    simp
  | cons e t ih =>
    intro acc
    rw [List.foldl_cons, ih]
    by_cases h : e.enabled = true ∧ e.known = true
    · cases ho : e.outcome with
      | ok m =>
        simp [init_step, entrySuccess, entryFailure, h.1, h.2, ho]
      | error msg =>
        simp [init_step, entrySuccess, entryFailure, h.1, h.2, ho]
    · have hcond : ¬ (e.enabled = true ∧ e.known = true) := h
      simp [init_step, entrySuccess, entryFailure, hcond]

theorem initialize_monitors_eq (entries : List MonitorEntry) :
    initialize_monitors entries =
      (entries.filterMap entrySuccess, entries.filterMap entryFailure) := by
  rw [initialize_monitors, init_fold_eq]
  simp

/-- C7: when one enabled entry's constructor raises, `_initialize_monitors`
logs that failure and omits exactly that monitor, while every other enabled
entry with a known class whose constructor succeeds is still registered (the
registry is precisely the successful entries, in order). -/
theorem init_monitors_isolates_failure (entries : List MonitorEntry)
    (e : MonitorEntry) (msg : String)
    (he : e ∈ entries) (hen : e.enabled = true) (hkn : e.known = true)
    (hfail : e.outcome = .error msg) :
    (initialize_monitors entries).1 = entries.filterMap entrySuccess ∧
    entrySuccess e = Option.none ∧
    msg ∈ (initialize_monitors entries).2 ∧
    (∀ e' ∈ entries, ∀ m', e'.enabled = true → e'.known = true →
      e'.outcome = .ok m' →
      (e'.name, m') ∈ (initialize_monitors entries).1) := by
  rw [initialize_monitors_eq]
  refine ⟨rfl, ?_, ?_, ?_⟩
  · simp [entrySuccess, hen, hkn, hfail]
  · exact List.mem_filterMap.mpr
      ⟨e, he, by simp [entryFailure, hen, hkn, hfail]⟩
  · intro e' he' m' hen' hkn' hok'
    exact List.mem_filterMap.mpr
      ⟨e', he', by simp [entrySuccess, hen', hkn', hok']⟩

/-- A concrete monitor configuration: two constructible enabled entries
around one whose constructor raises, plus a disabled entry. -/
def c7Entries : List MonitorEntry :=
  [⟨"funding_rate", true, true, .ok 1⟩,
   ⟨"open_interest", true, true, .error "boom"⟩,
   ⟨"price_spike", true, true, .ok 2⟩,
   ⟨"twitter_monitor", false, true, .ok 3⟩]

/-- Witness for C7: on `c7Entries` the failure is logged, the failing entry
is absent from the registry, and both other enabled entries are registered. -/
theorem init_monitors_isolates_failure_witness :
    (initialize_monitors c7Entries).1
      = [("funding_rate", 1), ("price_spike", 2)] ∧
    "boom" ∈ (initialize_monitors c7Entries).2 ∧
    ("funding_rate", 1) ∈ (initialize_monitors c7Entries).1 ∧
    ("price_spike", 2) ∈ (initialize_monitors c7Entries).1 := by
  have h := init_monitors_isolates_failure c7Entries
    ⟨"open_interest", true, true, .error "boom"⟩ "boom"
    (by simp [c7Entries]) rfl rfl rfl
  refine ⟨?_, h.2.2.1, ?_, ?_⟩
  · rw [h.1]
    simp [c7Entries, entrySuccess]
  · exact h.2.2.2 ⟨"funding_rate", true, true, .ok 1⟩ (by simp [c7Entries])
      1 rfl rfl rfl
  · exact h.2.2.2 ⟨"price_spike", true, true, .ok 2⟩ (by simp [c7Entries])
      2 rfl rfl rfl

theorem oi_check_symbol_invalid_mono (st : OIState) (symbol : String)
    (r : FetchOutcome) (x : String) (hx : x ∈ st.invalid) :
    x ∈ (oi_check_symbol st symbol r).1.invalid := by
  cases r with
  | ok oi p => simpa [oi_check_symbol] using hx
  | httpErr n =>
    by_cases h : n = 400
    · subst h
      simp only [oi_check_symbol, if_pos rfl]
      exact List.mem_append_left _ hx
    · simpa [oi_check_symbol, h] using hx
  | exn m => simpa [oi_check_symbol] using hx

theorem oi_fold_invalid_mono (fetch : String → FetchOutcome)
    (l : List String) :
    ∀ (acc : OIState × List String) (x : String), x ∈ acc.1.invalid →
      x ∈ (l.foldl (oi_check_step fetch) acc).1.invalid := by
  induction l with
  | nil =>
    intro acc x hx
    simpa using hx
  | cons a t ih =>
    intro acc x hx
    rw [List.foldl_cons]
    refine ih _ x ?_
    simpa [oi_check_step] using
      oi_check_symbol_invalid_mono acc.1 a (fetch a) x hx

theorem oi_fold_400_mem (fetch : String → FetchOutcome) (sym : String)
    (hf : fetch sym = .httpErr 400) (l : List String) :
    ∀ acc, sym ∈ l → sym ∈ (l.foldl (oi_check_step fetch) acc).1.invalid := by
  induction l with
  | nil =>
    intro acc h
    cases h
  | cons a t ih =>
    intro acc hmem
    rw [List.foldl_cons]
    rcases List.mem_cons.mp hmem with h | h
    · subst h
      apply oi_fold_invalid_mono
      simp [oi_check_step, hf, oi_check_symbol]
    · exact ih _ h

theorem oi_initialize_symbols_invalid (st : OIState) (univ : List String) :
    (oi_initialize_symbols st univ).invalid = st.invalid := by
  by_cases h : listTruthy st.watchlist <;> simp [oi_initialize_symbols, h]

/-- C8 counterexample: after one check cycle in which `"FOOUSDT"`'s fetch
answers HTTP 400, the symbol sits in `invalid_symbols` but also still in
`symbols`; calling `add_to_watchlist("FOOUSDT")` therefore hits the
"already in the list" early return and does not remove it from
`invalid_symbols`, contrary to the claim's escape clause. -/
theorem invalid_symbol_readd_blocked :
    ((oi_check ⟨Option.none, ["FOOUSDT"], [], [], []⟩ []
        (fun _ => .httpErr 400)).1).invalid = ["FOOUSDT"] ∧
    "FOOUSDT" ∈ ((oi_check ⟨Option.none, ["FOOUSDT"], [], [], []⟩ []
        (fun _ => .httpErr 400)).1).symbols ∧
    oi_add_to_watchlist
        (oi_check ⟨Option.none, ["FOOUSDT"], [], [], []⟩ []
          (fun _ => .httpErr 400)).1 "FOOUSDT"
      = ((oi_check ⟨Option.none, ["FOOUSDT"], [], [], []⟩ []
          (fun _ => .httpErr 400)).1, .alreadyPresent) := by
  decide

/-- C8 (amended): a symbol answering HTTP 400 is added to `invalid_symbols`
without raising, and every later cycle excludes it from the symbols checked
and keeps it invalid; but `add_to_watchlist` only removes it from
`invalid_symbols` when the symbol is no longer in `symbols` (e.g. after
`remove_from_watchlist`) — while it is still in `symbols` (as it is right
after the 400) `add_to_watchlist` is the "already in the list" no-op and
leaves it invalid. -/
theorem invalid_symbol_lifecycle (st : OIState) (univ : List String)
    (fetch : String → FetchOutcome) (sym : String) :
    (oi_check_symbol st sym (.httpErr 400)
      = ({ st with invalid := st.invalid ++ [sym] }, Option.none)) ∧
    (fetch sym = .httpErr 400 → sym ∈ oi_symbols_to_check st →
      sym ∈ (oi_check st univ fetch).1.invalid) ∧
    (sym ∈ st.invalid →
      sym ∉ oi_symbols_to_check st ∧
      sym ∈ (oi_check st univ fetch).1.invalid) ∧
    (pyUpper sym ∈ st.symbols →
      oi_add_to_watchlist st sym = (st, .alreadyPresent)) ∧
    (pyUpper sym ∉ st.symbols →
      (oi_add_to_watchlist st sym).1.invalid
        = st.invalid.filter (· ≠ pyUpper sym)) := by
  refine ⟨by simp [oi_check_symbol], ?_, ?_, ?_, ?_⟩
  · intro hf hmem
    have hne : ¬ (st.symbols = []) := by
      intro h0
      rw [oi_symbols_to_check, h0] at hmem
      simp at hmem
    simp only [oi_check, if_neg hne]
    exact oi_fold_400_mem fetch sym hf _ (st, []) hmem
  · intro hinv
    constructor
    · intro hmem
      rw [oi_symbols_to_check] at hmem
      have := (List.mem_filter.mp hmem).2
      simp [hinv] at this
    · by_cases hne : st.symbols = []
      · simp only [oi_check, if_pos hne]
        by_cases hinit : (oi_initialize_symbols st univ).symbols = []
        · simpa [hinit, oi_initialize_symbols_invalid] using hinv
        · simp only [hinit, if_neg, ite_false]
          exact oi_fold_invalid_mono fetch _ _ sym
            (by simpa [oi_initialize_symbols_invalid] using hinv)
      · simp only [oi_check, if_neg hne]
        exact oi_fold_invalid_mono fetch _ _ sym hinv
  · intro h
    simp [oi_add_to_watchlist, h]
  · intro h
    simp [oi_add_to_watchlist, h]

/-- Witness for the amended C8: concretely, the 400 puts `"FOOUSDT"` into
`invalid_symbols` during the check; `add_to_watchlist` on a state still
holding the symbol in `symbols` is a no-op; and once the symbol is out of
`symbols`, `add_to_watchlist` clears it from `invalid_symbols`. -/
theorem invalid_symbol_lifecycle_witness :
    "FOOUSDT" ∈ (oi_check ⟨Option.none, ["FOOUSDT"], [], [], []⟩ []
        (fun _ => .httpErr 400)).1.invalid ∧
    oi_add_to_watchlist ⟨Option.none, ["FOOUSDT"], ["FOOUSDT"], [], []⟩
        "FOOUSDT"
      = (⟨Option.none, ["FOOUSDT"], ["FOOUSDT"], [], []⟩, .alreadyPresent) ∧
    (oi_add_to_watchlist ⟨Option.none, [], ["FOOUSDT"], [], []⟩
        "FOOUSDT").1.invalid = [] := by
  refine ⟨?_, ?_, ?_⟩
  · exact (invalid_symbol_lifecycle ⟨Option.none, ["FOOUSDT"], [], [], []⟩ []
      (fun _ => .httpErr 400) "FOOUSDT").2.1 rfl (by decide)
  · exact (invalid_symbol_lifecycle
      ⟨Option.none, ["FOOUSDT"], ["FOOUSDT"], [], []⟩ []
      (fun _ => .httpErr 400) "FOOUSDT").2.2.2.1 (by decide)
  · have h := (invalid_symbol_lifecycle ⟨Option.none, [], ["FOOUSDT"], [], []⟩
      [] (fun _ => .httpErr 400) "FOOUSDT").2.2.2.2 (by decide)
    rw [h]
    decide

/-- C9: `get_funding_rate_alerts` never propagates an exception — whenever
any fetch or processing step of its pipeline raises, the `except Exception`
handler returns the empty alert list instead. -/
theorem funding_alerts_never_raise (threshold : Rat) (env : FundingEnv)
    (e : String) (h : computeFundingAlerts threshold env = .error e) :
    get_funding_rate_alerts threshold env = [] := by
  simp [get_funding_rate_alerts, h]

/-- An environment whose very first fetch (the premium-index request)
raises. -/
def c9Env : FundingEnv :=
  { funding := .error "connection reset",
    ticker := .ok [], spot := .ok [],
    klines := fun _ => .ok ⟨0, 0, 0⟩,
    openInterest := fun _ => .ok 0 }

/-- Witness for C9: with the premium-index fetch raising, the method returns
the empty list. -/
theorem funding_alerts_never_raise_witness :
    get_funding_rate_alerts (mkRat 1 1000) c9Env = [] :=
  funding_alerts_never_raise (mkRat 1 1000) c9Env "connection reset" rfl

theorem dictGet_dictSet_self (m : List (String × String)) (k v : String) :
    dictGet (dictSet m k v) k = some v := by
  induction m with
  | nil => simp [dictGet, dictSet, List.find?]
  | cons kv t ih =>
    by_cases hk : kv.1 = k
    · simp [dictGet, dictSet, hk, List.find?]
    · simpa [dictGet, dictSet, hk, List.find?] using ih

theorem dictGet_dictSet_other (m : List (String × String)) (k k' v : String)
    (h : k' ≠ k) : dictGet (dictSet m k v) k' = dictGet m k' := by
  induction m with
  | nil => simp [dictGet, dictSet, List.find?, Ne.symm h]
  | cons kv t ih =>
    by_cases hk : kv.1 = k
    · have hk' : ¬ (kv.1 = k') := by
        rw [hk]
        exact Ne.symm h
      simp [dictGet, dictSet, hk, hk', List.find?, Ne.symm h]
    · by_cases hk' : kv.1 = k'
      · simp [dictGet, dictSet, hk, hk', List.find?, h, Ne.symm h]
      · simpa [dictGet, dictSet, hk, hk', List.find?] using ih

theorem tw_firstrun_fold (fetch : String → TweetFetch) (uid tid : String)
    (hf : fetch uid = .tweet tid) (l : List String) :
    ∀ acc : List (String × String) × List (String × String),
      (uid ∈ l ∨ dictGet acc.1 uid = some tid) →
      dictGet (l.foldl (tw_step true fetch) acc).1 uid = some tid ∧
      (l.foldl (tw_step true fetch) acc).2 = acc.2 := by
  induction l with
  | nil =>
    intro acc h
    rcases h with h | h
    · cases h
    · exact ⟨h, rfl⟩
  | cons a t ih =>
    intro acc h
    rw [List.foldl_cons]
    have hstep2 : (tw_step true fetch acc a).2 = acc.2 := by
      cases hfa : fetch a <;> simp [tw_step, hfa]
    by_cases ha : a = uid
    · subst ha
      have hstep : (tw_step true fetch acc a).1 = dictSet acc.1 a tid := by
        simp [tw_step, hf]
      have hres := ih (tw_step true fetch acc a)
        (Or.inr (by rw [hstep]; exact dictGet_dictSet_self acc.1 a tid))
      exact ⟨hres.1, hres.2.trans hstep2⟩
    · have hpres : dictGet (tw_step true fetch acc a).1 uid
          = dictGet acc.1 uid := by
        cases hfa : fetch a with
        | err m => simp [tw_step, hfa]
        | noTweet => simp [tw_step, hfa]
        | tweet t' =>
          simp only [tw_step, hfa, if_pos]
          exact dictGet_dictSet_other acc.1 a uid t' (fun hh => ha hh.symm)
      have hnext : uid ∈ t ∨ dictGet (tw_step true fetch acc a).1 uid
          = some tid := by
        rcases h with h | h
        · rcases List.mem_cons.mp h with h1 | h1
          · exact absurd h1.symm ha
          · exact Or.inl h1
        · exact Or.inr (hpres.trans h)
      have hres := ih (tw_step true fetch acc a) hnext
      exact ⟨hres.1, hres.2.trans hstep2⟩

/-- C10: when `is_first_run` is true at the start of a `check()` cycle, the
cycle sends no alert messages and records the latest tweet id of every
watched user whose fetch yields a tweet, then clears the flag; and because a
successful `add_to_watchlist` sets `is_first_run` back to true, the first
cycle after adding any user sends no alerts for any user. -/
theorem twitter_first_run_silent (st : TwState) (fetch : String → TweetFetch)
    (h : st.isFirstRun = true) :
    (tw_check st fetch).2 = [] ∧
    (tw_check st fetch).1.isFirstRun = false ∧
    (∀ uid tid, uid ∈ st.watchIds → fetch uid = .tweet tid →
      dictGet (tw_check st fetch).1.latest uid = some tid) ∧
    (∀ (st' : TwState) (uid : String) (fetch' : String → TweetFetch),
      (tw_add_to_watchlist st' uid).2 = .added →
      (tw_check (tw_add_to_watchlist st' uid).1 fetch').2 = []) := by
  refine ⟨by simp [tw_check, h], by simp [tw_check, h], ?_, ?_⟩
  · intro uid tid huid hf
    have hfold := tw_firstrun_fold fetch uid tid hf st.watchIds
      (st.latest, []) (Or.inl huid)
    simpa [tw_check, h] using hfold.1
  · intro st' uid fetch' hadd
    have hfr : (tw_add_to_watchlist st' uid).1.isFirstRun = true := by
      by_cases h1 : pyIsDigit uid
      · by_cases h2 : uid ∈ st'.watchIds
        · simp [tw_add_to_watchlist, h1, h2] at hadd
        · simp [tw_add_to_watchlist, h1, h2]
      · simp [tw_add_to_watchlist, h1] at hadd
    simp [tw_check, hfr]

/-- Witness for C10: one watched user with a tweet — the first-run cycle
sends nothing, records the tweet id, clears the flag; and the cycle right
after adding user `"99"` to a non-first-run monitor sends nothing either. -/
theorem twitter_first_run_silent_witness :
    (tw_check ⟨["123"], [], true⟩ (fun _ => .tweet "t1")).2 = [] ∧
    (tw_check ⟨["123"], [], true⟩ (fun _ => .tweet "t1")).1.isFirstRun
      = false ∧
    dictGet (tw_check ⟨["123"], [], true⟩
        (fun _ => .tweet "t1")).1.latest "123" = some "t1" ∧
    (tw_check (tw_add_to_watchlist ⟨[], [], false⟩ "99").1
        (fun _ => .tweet "t2")).2 = [] := by
  have h := twitter_first_run_silent ⟨["123"], [], true⟩
    (fun _ => .tweet "t1") rfl
  exact ⟨h.1, h.2.1, h.2.2.1 "123" "t1" (by simp) rfl,
    h.2.2.2 ⟨[], [], false⟩ "99" (fun _ => .tweet "t2") (by decide)⟩

end CoinMonitor
